import Mathlib

/-!
Shallow embedding of the rich-text editor controller in `src/src/app/page.tsx`.

The component delegates all actual editing to the host browser engine
(`document.execCommand`, `document.queryCommandState`,
`document.queryCommandValue`, `document.getSelection`).  We model the host
engine as explicit function parameters / environment records, the React state
(`html`, `plain`, `activeCommands`, `blockType`, `foreground`, `background`)
as a `State` structure, and each handler (`exec`, `handleSelection`,
`handleColorPick`, `handleInput`, `reset`) as a pure state transformer.
Host-engine invocations performed by a handler are returned as an explicit
call trace.

JavaScript strings are modelled as Lean `String` / `List Char`; the JS
whitespace class used by both `String.prototype.trim` and the regex `\s`
is modelled by the single predicate `isWs` (applied consistently, as in JS).
-/

namespace TextStudio

/-- The `Command` union type of `page.tsx` (lines 5–17). -/
inductive Command
  | bold
  | italic
  | underline
  | strikeThrough
  | insertOrderedList
  | insertUnorderedList
  | justifyLeft
  | justifyCenter
  | justifyRight
  | justifyFull
  | removeFormat
  | formatBlock
deriving DecidableEq, Repr

/-- The toggle-style commands queried by `handleSelection`: the commands of
`[...inlineButtons, ...listButtons, ...alignmentButtons]` in source order
(lines 26–43, spread at line 118). -/
def toggleCommands : List Command :=
  [Command.bold, Command.italic, Command.underline, Command.strikeThrough,
   Command.insertOrderedList, Command.insertUnorderedList,
   Command.justifyLeft, Command.justifyCenter, Command.justifyRight,
   Command.justifyFull]

/-- The two color commands of `handleColorPick` (line 169). -/
inductive ColorCommand
  | foreColor
  | backColor
deriving DecidableEq, Repr

/-- The editable surface (`editorRef.current`): its serialized markup
(`innerHTML`) and rendered plain text (`innerText`), both host-maintained. -/
structure Surface where
  innerHTML : String
  innerText : String
deriving DecidableEq, Repr

/-- The component state: `editorRef.current` (`none` when the surface is not
mounted) and the six `useState` cells of lines 61–68.  `activeCommands` is the
`Record<string, boolean>` modelled as an association list; a JS record lookup
of an absent key is `undefined`, which is falsy, so lookups default to
`false` (see `isActive`). -/
structure State where
  editor : Option Surface
  html : String
  plain : String
  activeCommands : List (Command × Bool)
  blockType : String
  foreground : String
  background : String
deriving DecidableEq, Repr

/-- Whether the snapshot reports a toggle command as active: record lookup
with falsy default (absent key reads as inactive). -/
def isActive (s : State) (c : Command) : Bool :=
  (s.activeCommands.lookup c).getD false

/-- `DEFAULT_MARKUP` (lines 53–54), verbatim. -/
def DEFAULT_MARKUP : String :=
  "<h2>Tell your story ✨</h2><p>Highlight a sentence to format it or pick a color to make it pop. Everything you write appears instantly in the live preview.</p>"

/-- A host-engine invocation made by one of the handlers. -/
inductive HostCall
  | focus
  | execCommand (cmd : Command) (value : Option String)
  | execColorCommand (cmd : ColorCommand) (value : String)
  | setContent (markup : String)
deriving DecidableEq, Repr

/-- `updateStateFromEditor` (lines 77–84): reads `innerHTML` / `innerText`
from the mounted surface into the `html` / `plain` state; no-op when the
surface is not mounted. -/
def updateStateFromEditor (s : State) : State :=
  match s.editor with
  | none => s
  | some ed => { s with html := ed.innerHTML, plain := ed.innerText }

/-- `exec` (lines 86–101), parameterized by the host engine's effect
`host : Command → Option String → Surface → Surface` on the surface.
Returns the new state and the trace of host invocations.  For `formatBlock`
the value `value ?? "p"` is passed (line 94); otherwise `value` as given
(line 96). -/
def exec (host : Command → Option String → Surface → Surface)
    (command : Command) (value : Option String) (s : State) :
    State × List HostCall :=
  match s.editor with
  | none => (s, [])
  | some ed =>
    let v : Option String :=
      if command = Command.formatBlock then some (value.getD "p") else value
    let ed2 := host command v ed
    (updateStateFromEditor { s with editor := some ed2 },
     [HostCall.focus, HostCall.execCommand command v])

/-- `handleColorPick` (lines 168–184), parameterized by the host engine's
effect of the color command on the surface. -/
def handleColorPick (host : ColorCommand → String → Surface → Surface)
    (command : ColorCommand) (color : String) (s : State) :
    State × List HostCall :=
  match s.editor with
  | none => (s, [])
  | some ed =>
    let ed2 := host command color ed
    let s2 := updateStateFromEditor { s with editor := some ed2 }
    let s3 :=
      match command with
      | ColorCommand.foreColor => { s2 with foreground := color }
      | ColorCommand.backColor => { s2 with background := color }
    (s3, [HostCall.focus, HostCall.execColorCommand command color])

/-- `handleInput` (lines 164–166): just `updateStateFromEditor`. -/
def handleInput (s : State) : State :=
  updateStateFromEditor s

/-- `reset` (lines 186–197), parameterized by the host engine's plain-text
rendering `render` of assigned markup (`innerText` after setting
`innerHTML`).  No-op when the surface is not mounted. -/
def reset (render : String → String) (s : State) : State × List HostCall :=
  match s.editor with
  | none => (s, [])
  | some _ =>
    let ed2 : Surface :=
      { innerHTML := DEFAULT_MARKUP, innerText := render DEFAULT_MARKUP }
    let s2 := updateStateFromEditor { s with editor := some ed2 }
    ({ s2 with
        foreground := "#1f2933"
        background := "#ffffff"
        activeCommands := []
        blockType := "p" },
     [HostCall.setContent DEFAULT_MARKUP])

/-- A `Selection` object as used by `handleSelection`: only its `anchorNode`
is read (line 112).  `Node` abstracts DOM nodes. -/
structure SelObj (Node : Type) where
  anchorNode : Option Node
deriving DecidableEq, Repr

/-- The host environment read by `handleSelection`: `document.getSelection()`
(possibly `null`), the containment test `editor.contains`,
`document.queryCommandState` and `document.queryCommandValue` — the last two
may throw, modelled by `Except Unit`. -/
structure SelectionEnv (Node : Type) where
  selection : Option (SelObj Node)
  editorContains : Node → Bool
  queryCommandState : Command → Except Unit Bool
  queryCommandValue : Except Unit String

/-- Whether `handleSelection` takes one of its early-return paths for lack of
a usable selection: no active selection, no anchor node, or the anchor node
not contained in the editor subtree (lines 107–116). -/
def selectionOutside {Node : Type} (env : SelectionEnv Node) : Bool :=
  match env.selection with
  | none => true
  | some sel =>
    match sel.anchorNode with
    | none => true
    | some n => !env.editorContains n

/-- The normalization of a truthy `queryCommandValue("formatBlock")` result
(lines 131–134): `.replace(/[<>]/g, "").toLowerCase()` — every occurrence of
the characters `<` and `>` is removed, then the string is lowercased. -/
def normalizeBlock (q : String) : String :=
  String.mk ((q.data.filter (fun c => !(c = '<' || c = '>'))).map Char.toLower)

/-- `handleSelection` (lines 104–144).  Early-return paths (`!editor`,
`!selection`, `!withinEditor`) call only `setActiveCommands({})` and leave
`blockType` untouched.  Otherwise each toggle command is queried (a throwing
query records `false`, lines 120–124), and the block format is queried,
normalized, defaulted to `"p"` on falsy value or on throw, and mapped from
`"body"` to `"p"` (lines 127–141). -/
def handleSelection {Node : Type} (env : SelectionEnv Node) (s : State) :
    State :=
  match s.editor, env.selection with
  | none, _ => { s with activeCommands := [] }
  | some _, none => { s with activeCommands := [] }
  | some _, some sel =>
    match sel.anchorNode with
    | none => { s with activeCommands := [] }
    | some n =>
      if env.editorContains n then
        let nextState : List (Command × Bool) :=
          toggleCommands.map (fun c =>
            (c, match env.queryCommandState c with
                | Except.ok b => b
                | Except.error _ => false))
        let currentBlock : String :=
          match env.queryCommandValue with
          | Except.ok queried =>
            if queried ≠ "" then normalizeBlock queried else "p"
          | Except.error _ => "p"
        let currentBlock2 : String :=
          if currentBlock = "body" then "p" else currentBlock
        { s with activeCommands := nextState, blockType := currentBlock2 }
      else { s with activeCommands := [] }

/-! ### Derived text statistics (`stats`, lines 152–162) -/

/-- The JS whitespace class (used by `trim` and the regex in `split`). -/
def isWs (c : Char) : Bool :=
  c = ' ' || c = '\t' || c = '\n' || c = '\r' || c = '\x0b' || c = '\x0c'

/-- `String.prototype.trim`: whitespace removed from both ends. -/
def jsTrim (l : List Char) : List Char :=
  ((l.dropWhile isWs).reverse.dropWhile isWs).reverse

/-- Worker for `splitRuns`: `acc` is the token being accumulated (reversed),
`inRun` records whether the previous character belonged to a separator run
(so that a maximal run yields a single split point, as the regexes
`/\s+/` and `/[.!?]+/` do). -/
def splitRunsGo (p : Char → Bool) : List Char → List Char → Bool →
    List (List Char)
  | [], acc, _ => [acc.reverse]
  | c :: cs, acc, inRun =>
    if p c then
      if inRun then splitRunsGo p cs acc true
      else acc.reverse :: splitRunsGo p cs [] true
    else splitRunsGo p cs (c :: acc) false

/-- JS `String.prototype.split` on a regex matching maximal nonempty runs of
characters satisfying `p` (such as `/\s+/` or `/[.!?]+/`). -/
def splitRuns (p : Char → Bool) (l : List Char) : List (List Char) :=
  splitRunsGo p l [] false

/-- The `words` statistic (lines 153–158):
`plain.trim() ? plain.trim().split(/\s+/).filter(Boolean).length : 0`. -/
def words (plain : String) : Nat :=
  if jsTrim plain.data = [] then 0
  else ((splitRuns isWs (jsTrim plain.data)).filter
    (fun tok => !tok.isEmpty)).length

/-- The `characters` statistic (line 159): `plain.length`. -/
def characters (plain : String) : Nat :=
  plain.length

/-- The sentence-terminator class of the regex `/[.!?]+/` (line 160). -/
def isSentTerm (c : Char) : Bool :=
  c = '.' || c = '!' || c = '?'

/-- The `sentences` statistic (line 160):
`plain ? plain.split(/[.!?]+/).filter(Boolean).length : 0`. -/
def sentences (plain : String) : Nat :=
  if plain = "" then 0
  else ((splitRuns isSentTerm plain.data).filter
    (fun tok => !tok.isEmpty)).length

/-! ### Spec-side definition for the C6 comparison -/

/-- Modelled from the spec, for comparison with `normalizeBlock` (claim C6):
"strip surrounding markup delimiters ('<', '>')" read literally — remove a
leading `<` and a trailing `>` only — then lowercase.  The code instead
removes every occurrence of `<` and `>`. -/
def specStripSurrounding (q : String) : String :=
  let l := q.data
  let l1 := if l.head? = some '<' then l.tail else l
  let l2 := if l1.getLast? = some '>' then l1.dropLast else l1
  String.mk (l2.map Char.toLower)

/-! ### Concrete inputs used by witnesses and counterexamples -/

/-- A mounted surface with some user content. -/
def sampleSurface : Surface :=
  { innerHTML := "<p>hi</p>", innerText := "hi" }

/-- A state with the surface mounted, a non-default prior snapshot
(`blockType = "h2"`, bold active) and non-default colors. -/
def sampleState : State :=
  { editor := some sampleSurface
    html := "<p>hi</p>"
    plain := "hi"
    activeCommands := [(Command.bold, true)]
    blockType := "h2"
    foreground := "#000000"
    background := "#abcdef" }

/-- `sampleState` with the surface unmounted. -/
def unmountedState : State :=
  { sampleState with editor := none }

/-- A host environment with no active selection (DOM nodes are `Unit`). -/
def envNoSelection : SelectionEnv Unit :=
  { selection := none
    editorContains := fun _ => true
    queryCommandState := fun _ => Except.ok true
    queryCommandValue := Except.ok "h1" }

/-- A host environment with the selection anchored inside the editor and the
block-format query reporting a value with an interior delimiter. -/
def envAngleBlock : SelectionEnv Unit :=
  { selection := some { anchorNode := some () }
    editorContains := fun _ => true
    queryCommandState := fun _ => Except.ok false
    queryCommandValue := Except.ok "h<2>" }

/-- A host environment with the selection anchored inside the editor and the
block-format query reporting the implicit root container (as `"<BODY>"`). -/
def envBodyBlock : SelectionEnv Unit :=
  { selection := some { anchorNode := some () }
    editorContains := fun _ => true
    queryCommandState := fun _ => Except.ok false
    queryCommandValue := Except.ok "<BODY>" }

/-- A host environment with the selection anchored inside the editor and
every host query throwing. -/
def envThrowing : SelectionEnv Unit :=
  { selection := some { anchorNode := some () }
    editorContains := fun _ => true
    queryCommandState := fun _ => Except.error ()
    queryCommandValue := Except.error () }

/-- A host engine that leaves the surface unchanged (used in witnesses). -/
def sampleHost : Command → Option String → Surface → Surface :=
  fun _ _ ed => ed

/-- A color-host engine that leaves the surface unchanged. -/
def sampleColorHost : ColorCommand → String → Surface → Surface :=
  fun _ _ ed => ed

/-- A plain-text rendering used in witnesses. -/
def sampleRender : String → String :=
  fun m => m

/-! ### Helper lemmas -/

theorem splitRunsGo_acc_ne (p : Char → Bool) (l : List Char) :
    ∀ (acc : List Char) (inRun : Bool), acc ≠ [] →
      ∃ tok ∈ splitRunsGo p l acc inRun, tok ≠ [] := by
  induction l with
  | nil =>
    intro acc inRun h
    refine ⟨acc.reverse, ?_, by simpa using h⟩
    simp [splitRunsGo]
  | cons c cs ih =>
    intro acc inRun h
    by_cases hc : p c
    · cases inRun
      · refine ⟨acc.reverse, ?_, by simpa using h⟩
        simp [splitRunsGo, hc]
      · have := ih acc true h
        simpa [splitRunsGo, hc] using this
    · have := ih (c :: acc) false (by simp)
      simpa [splitRunsGo, hc] using this

theorem splitRunsGo_exists_ne (p : Char → Bool) (l : List Char) :
    ∀ (acc : List Char) (inRun : Bool), (∃ c ∈ l, p c = false) →
      ∃ tok ∈ splitRunsGo p l acc inRun, tok ≠ [] := by
  induction l with
  | nil =>
    intro acc inRun h
    simp at h
  | cons c cs ih =>
    intro acc inRun h
    by_cases hc : p c
    · have h' : ∃ x ∈ cs, p x = false := by
        rcases h with ⟨x, hx, hpx⟩
        rcases List.mem_cons.mp hx with rfl | hx'
        · rw [hc] at hpx; cases hpx
        · exact ⟨x, hx', hpx⟩
      cases inRun
      · rcases ih [] true h' with ⟨tok, ht, hne⟩
        refine ⟨tok, ?_, hne⟩
        simp only [splitRunsGo, hc, if_true]
        exact List.mem_cons_of_mem _ ht
      · rcases ih acc true h' with ⟨tok, ht, hne⟩
        refine ⟨tok, ?_, hne⟩
        simpa [splitRunsGo, hc] using ht
    · have := splitRunsGo_acc_ne p cs (c :: acc) false (by simp)
      simpa [splitRunsGo, hc] using this

theorem jsTrim_exists_not_ws (l : List Char) (h : jsTrim l ≠ []) :
    ∃ c ∈ jsTrim l, isWs c = false := by
  have hbne : (l.dropWhile isWs).reverse.dropWhile isWs ≠ [] := by
    intro hnil
    apply h
    unfold jsTrim
    rw [hnil]
    rfl
  refine ⟨((l.dropWhile isWs).reverse.dropWhile isWs).head hbne, ?_, ?_⟩
  · unfold jsTrim
    rw [List.mem_reverse]
    exact List.head_mem hbne
  · exact List.head_dropWhile_not isWs (l.dropWhile isWs).reverse hbne

/-! ### Claim theorems -/

/-- Claim C3: for every plain-text input `t`, `words t = 0` iff `t` with
surrounding whitespace trimmed is empty; otherwise `words t` is the number of
non-empty tokens obtained by splitting the trimmed text on runs of
whitespace (this equation in fact holds for all `t`); and `characters t`
equals the length of the un-trimmed input exactly. -/
theorem C3_words_characters (t : String) :
    (words t = 0 ↔ jsTrim t.data = []) ∧
    words t = ((splitRuns isWs (jsTrim t.data)).filter
      (fun tok => !tok.isEmpty)).length ∧
    characters t = t.length := by
  have hval : words t = ((splitRuns isWs (jsTrim t.data)).filter
      (fun tok => !tok.isEmpty)).length := by
    by_cases h : jsTrim t.data = []
    · unfold words
      rw [if_pos h, h]
      rfl
    · unfold words
      rw [if_neg h]
  refine ⟨⟨?_, ?_⟩, hval, rfl⟩
  · intro h0
    by_contra hne
    rcases jsTrim_exists_not_ws t.data hne with ⟨c, hc, hcw⟩
    rcases splitRunsGo_exists_ne isWs (jsTrim t.data) [] false ⟨c, hc, hcw⟩
      with ⟨tok, htok, hne2⟩
    have hlen : ((splitRuns isWs (jsTrim t.data)).filter
        (fun tok => !tok.isEmpty)).length = 0 := by
      rw [← hval]; exact h0
    rw [List.length_eq_zero] at hlen
    have := List.filter_eq_nil_iff.mp hlen tok htok
    simp at this
    exact hne2 this
  · intro h
    unfold words
    rw [if_pos h]

/-- Claim C4: the sentence count equals the number of non-empty segments
obtained by splitting the input on runs of `.`, `!`, `?` (and is 0 for the
empty input), with `sentences "" = 0`, `sentences "Hello." = 1`,
`sentences "Hi! Bye? Ok." = 3`, `sentences "no punctuation" = 1`. -/
theorem C4_sentences_spec :
    (∀ t : String, sentences t =
      ((splitRuns isSentTerm t.data).filter (fun tok => !tok.isEmpty)).length) ∧
    sentences "" = 0 ∧
    sentences "Hello." = 1 ∧
    sentences "Hi! Bye? Ok." = 3 ∧
    sentences "no punctuation" = 1 := by
  refine ⟨?_, by decide, by decide, by decide, by decide⟩
  intro t
  by_cases h : t = ""
  · subst h
    decide
  · unfold sentences
    rw [if_neg h]

/-- Claim C5: applying the block-format command with no explicit value
behaves identically to applying it with the value `"p"` (the paragraph tag):
the same host-engine invocation is made and the same state results. -/
theorem C5_formatBlock_default_value
    (host : Command → Option String → Surface → Surface) (s : State) :
    exec host Command.formatBlock none s =
      exec host Command.formatBlock (some "p") s := by
  unfold exec
  rcases hs : s.editor with _ | ed <;> rfl

/-- Claim C10: word count and sentence count are not ordered with respect to
each other: for the input `"..."` (only sentence terminators) `words = 1`
while `sentences = 0`, and for the whitespace-only input `" "` `words = 0`
while `sentences = 1`. -/
theorem C10_counts_incomparable :
    words "..." = 1 ∧ sentences "..." = 0 ∧
    words " " = 0 ∧ sentences " " = 1 := by
  decide

theorem handleSelection_frame {Node : Type} (env : SelectionEnv Node)
    (s : State) :
    (handleSelection env s).foreground = s.foreground ∧
    (handleSelection env s).background = s.background ∧
    (handleSelection env s).editor = s.editor ∧
    (handleSelection env s).html = s.html ∧
    (handleSelection env s).plain = s.plain := by
  unfold handleSelection
  rcases hs : s.editor with _ | ed <;> rcases he : env.selection with _ | sel
  · simp
  · simp
  · simp
  · rcases ha : sel.anchorNode with _ | n
    · simp [ha]
    · by_cases hc : env.editorContains n <;> simp [ha, hc]

/-- Claim C8: when the editable surface is not mounted, `exec`,
`handleColorPick` and `reset` are silent no-ops: the state is unchanged and
no host-engine operation is invoked. -/
theorem C8_unmounted_silent_noop
    (host : Command → Option String → Surface → Surface)
    (chost : ColorCommand → String → Surface → Surface)
    (render : String → String)
    (c : Command) (v : Option String) (cc : ColorCommand) (color : String)
    (s : State) (h : s.editor = none) :
    exec host c v s = (s, []) ∧
    handleColorPick chost cc color s = (s, []) ∧
    reset render s = (s, []) := by
  unfold exec handleColorPick reset
  rw [h]
  exact ⟨rfl, rfl, rfl⟩

theorem C8_unmounted_silent_noop_witness :
    unmountedState.editor = none ∧
    exec sampleHost Command.bold none unmountedState = (unmountedState, []) ∧
    handleColorPick sampleColorHost ColorCommand.foreColor "#ff0000"
      unmountedState = (unmountedState, []) ∧
    reset sampleRender unmountedState = (unmountedState, []) := by
  refine ⟨rfl, ?_⟩
  exact C8_unmounted_silent_noop sampleHost sampleColorHost sampleRender
    Command.bold none ColorCommand.foreColor "#ff0000" unmountedState rfl

/-- Claim C9: `ColorState` is updated only by an explicit color choice or by
reset: `exec` (any command), `handleInput` and `handleSelection` leave both
`foreground` and `background` unchanged, a `foreColor` pick leaves the
background unchanged, and a `backColor` pick leaves the foreground
unchanged. -/
theorem C9_colorstate_frame :
    (∀ (host : Command → Option String → Surface → Surface)
        (c : Command) (v : Option String) (s : State),
        (exec host c v s).1.foreground = s.foreground ∧
        (exec host c v s).1.background = s.background) ∧
    (∀ s : State, (handleInput s).foreground = s.foreground ∧
        (handleInput s).background = s.background) ∧
    (∀ (Node : Type) (env : SelectionEnv Node) (s : State),
        (handleSelection env s).foreground = s.foreground ∧
        (handleSelection env s).background = s.background) ∧
    (∀ (chost : ColorCommand → String → Surface → Surface)
        (color : String) (s : State),
        (handleColorPick chost ColorCommand.foreColor color s).1.background =
          s.background ∧
        (handleColorPick chost ColorCommand.backColor color s).1.foreground =
          s.foreground) := by
  refine ⟨?_, ?_, ?_, ?_⟩
  · intro host c v s
    unfold exec updateStateFromEditor
    rcases hs : s.editor with _ | ed <;> simp
  · intro s
    unfold handleInput updateStateFromEditor
    rcases hs : s.editor with _ | ed <;> simp
  · intro Node env s
    exact ⟨(handleSelection_frame env s).1, (handleSelection_frame env s).2.1⟩
  · intro chost color s
    unfold handleColorPick updateStateFromEditor
    rcases hs : s.editor with _ | ed <;> simp

/-- Claim C2: with the surface mounted, `reset` produces the fixed default
result — surface content and markup state equal to `DEFAULT_MARKUP`, plain
text equal to the host rendering of `DEFAULT_MARKUP`, the default selection
snapshot (all commands inactive, `blockType = "p"`), and the default colors
`#1f2933` / `#ffffff` — and `reset` is idempotent: a second `reset` yields
exactly the same state. -/
theorem C2_reset_default (render : String → String) (s : State)
    (h : s.editor.isSome = true) :
    (reset render s).1.editor =
      some { innerHTML := DEFAULT_MARKUP
             innerText := render DEFAULT_MARKUP } ∧
    (reset render s).1.html = DEFAULT_MARKUP ∧
    (reset render s).1.plain = render DEFAULT_MARKUP ∧
    (∀ c, isActive (reset render s).1 c = false) ∧
    (reset render s).1.blockType = "p" ∧
    (reset render s).1.foreground = "#1f2933" ∧
    (reset render s).1.background = "#ffffff" ∧
    (reset render (reset render s).1).1 = (reset render s).1 := by
  obtain ⟨ed, hed⟩ := Option.isSome_iff_exists.mp h
  unfold reset updateStateFromEditor
  rw [hed]
  simp [isActive, List.lookup]

theorem C2_reset_default_witness :
    sampleState.editor.isSome = true ∧
    (reset sampleRender sampleState).1.editor =
      some { innerHTML := DEFAULT_MARKUP
             innerText := sampleRender DEFAULT_MARKUP } ∧
    (reset sampleRender sampleState).1.html = DEFAULT_MARKUP ∧
    isActive (reset sampleRender sampleState).1 Command.bold = false ∧
    (reset sampleRender sampleState).1.blockType = "p" ∧
    (reset sampleRender sampleState).1.foreground = "#1f2933" ∧
    (reset sampleRender sampleState).1.background = "#ffffff" ∧
    (reset sampleRender (reset sampleRender sampleState).1).1 =
      (reset sampleRender sampleState).1 := by
  have h := C2_reset_default sampleRender sampleState rfl
  exact ⟨rfl, h.1, h.2.1, h.2.2.2.1 Command.bold, h.2.2.2.2.1,
    h.2.2.2.2.2.1, h.2.2.2.2.2.2.1, h.2.2.2.2.2.2.2⟩

/-- Claim C1 as stated is false: on the early-return paths of
`handleSelection` (here: no active selection) the emitted snapshot does NOT
equal the default snapshot regardless of prior state — `blockType` keeps its
prior value (`"h2"` in this concrete state) instead of becoming `"p"`. -/
theorem C1_counterexample :
    sampleState.editor = some sampleSurface ∧
    selectionOutside envNoSelection = true ∧
    sampleState.blockType = "h2" ∧
    (handleSelection envNoSelection sampleState).blockType = "h2" ∧
    (handleSelection envNoSelection sampleState).blockType ≠ "p" := by
  refine ⟨rfl, rfl, rfl, ?_, ?_⟩ <;> decide

/-- Claim C1 (amended): for every selection-change event in which no
editable surface is mounted, no active selection exists, the selection has
no anchor node, or the anchor node is not contained in the surface's
subtree, every toggle command becomes inactive in the emitted snapshot, but
`blockType` retains its prior value (it is not reset to `"p"`). -/
theorem C1_outside_clears_commands_only (Node : Type)
    (env : SelectionEnv Node) (s : State)
    (h : s.editor = none ∨ selectionOutside env = true) :
    (∀ c, isActive (handleSelection env s) c = false) ∧
    (handleSelection env s).blockType = s.blockType := by
  unfold handleSelection
  rcases hs : s.editor with _ | ed
  · simp [isActive, List.lookup]
  · rcases he : env.selection with _ | sel
    · simp [isActive, List.lookup]
    · rcases ha : sel.anchorNode with _ | n
      · simp [ha, isActive, List.lookup]
      · have hc : env.editorContains n = false := by
          rcases h with h | h
          · rw [hs] at h
            cases h
          · simp only [selectionOutside, he, ha, Bool.not_eq_true'] at h
            exact h
        simp [ha, hc, isActive, List.lookup]

theorem C1_outside_clears_commands_only_witness :
    (sampleState.editor = none ∨ selectionOutside envNoSelection = true) ∧
    isActive (handleSelection envNoSelection sampleState) Command.bold =
      false ∧
    (handleSelection envNoSelection sampleState).blockType =
      sampleState.blockType := by
  have h := C1_outside_clears_commands_only Unit envNoSelection sampleState
    (Or.inr rfl)
  exact ⟨Or.inr rfl, h.1 Command.bold, h.2⟩

/-- Claim C6 as stated is false: "surrounding markup delimiters stripped"
does not describe the code, which removes EVERY occurrence of `<` and `>`.
For the reported value `"h<2>"` the code stores `"h2"`, while stripping only
the surrounding delimiters would give `"h<2"`. -/
theorem C6_counterexample :
    envAngleBlock.queryCommandValue = Except.ok "h<2>" ∧
    (handleSelection envAngleBlock sampleState).blockType = "h2" ∧
    specStripSurrounding "h<2>" = "h<2" ∧
    (handleSelection envAngleBlock sampleState).blockType ≠
      specStripSurrounding "h<2>" := by
  refine ⟨rfl, ?_, ?_, ?_⟩ <;> decide

/-- Claim C6 (amended): for every value `q` the host engine reports as the
current block-level format while the selection is inside the surface (and
`q` non-empty), the stored `blockType` is `q` with ALL occurrences of the
markup delimiters `<` and `>` removed and lowercased; if that normalized
value is the document's implicit root container (`"body"`), it is mapped to
`"p"` and never surfaced as any other literal value. -/
theorem C6_block_normalization (Node : Type) (env : SelectionEnv Node)
    (s : State) (ed : Surface) (sel : SelObj Node) (n : Node) (q : String)
    (h1 : s.editor = some ed) (h2 : env.selection = some sel)
    (h3 : sel.anchorNode = some n) (h4 : env.editorContains n = true)
    (h5 : env.queryCommandValue = Except.ok q) (h6 : q ≠ "") :
    (handleSelection env s).blockType =
      (if normalizeBlock q = "body" then "p" else normalizeBlock q) ∧
    (normalizeBlock q = "body" → (handleSelection env s).blockType = "p") := by
  unfold handleSelection
  simp only [h1, h2, h3, h4, h5, if_true]
  rw [if_pos h6]
  refine ⟨rfl, fun hb => ?_⟩
  rw [if_pos hb]

theorem C6_block_normalization_witness :
    envBodyBlock.queryCommandValue = Except.ok "<BODY>" ∧
    normalizeBlock "<BODY>" = "body" ∧
    (handleSelection envBodyBlock sampleState).blockType = "p" := by
  refine ⟨rfl, by decide, ?_⟩
  exact (C6_block_normalization Unit envBodyBlock sampleState sampleSurface
    { anchorNode := some () } () "<BODY>" rfl rfl rfl rfl rfl
    (by decide)).2 (by decide)

theorem lookup_map_pair (f : Command → Bool) :
    ∀ (l : List Command) (a : Command), a ∈ l →
      (l.map (fun x => (x, f x))).lookup a = some (f a) := by
  intro l
  induction l with
  | nil =>
    intro a ha
    cases ha
  | cons b bs ih =>
    intro a ha
    by_cases hab : a = b
    · subst hab
      simp [List.lookup]
    · have hmem : a ∈ bs := by
        rcases List.mem_cons.mp ha with h | h
        · exact absurd h hab
        · exact h
      have hbeq : (a == b) = false := by simpa using hab
      simp only [List.map_cons, List.lookup, hbeq]
      exact ih a hmem

/-- Claim C7: host query failures during snapshot computation are absorbed:
while the selection is inside the mounted surface, every toggle command gets
an entry in the snapshot (the remaining commands are still queried whatever
any individual query does); a command whose active-state query throws is
recorded as inactive; and if the block-format query throws, `blockType` is
recorded as `"p"`.  The handler is a total function, so no failure
escapes. -/
theorem C7_query_failures (Node : Type) (env : SelectionEnv Node)
    (s : State) (ed : Surface) (sel : SelObj Node) (n : Node)
    (h1 : s.editor = some ed) (h2 : env.selection = some sel)
    (h3 : sel.anchorNode = some n) (h4 : env.editorContains n = true) :
    (∀ c ∈ toggleCommands,
      ((handleSelection env s).activeCommands.lookup c).isSome = true ∧
      (env.queryCommandState c = Except.error () →
        isActive (handleSelection env s) c = false)) ∧
    (env.queryCommandValue = Except.error () →
      (handleSelection env s).blockType = "p") := by
  unfold handleSelection
  simp only [h1, h2, h3, h4, if_true]
  constructor
  · intro c hc
    rw [lookup_map_pair _ toggleCommands c hc]
    refine ⟨rfl, fun herr => ?_⟩
    unfold isActive
    rw [lookup_map_pair _ toggleCommands c hc, herr]
    rfl
  · intro herr
    rw [herr]
    rfl

theorem C7_query_failures_witness :
    envThrowing.queryCommandState Command.bold = Except.error () ∧
    envThrowing.queryCommandValue = Except.error () ∧
    isActive (handleSelection envThrowing sampleState) Command.bold = false ∧
    (handleSelection envThrowing sampleState).blockType = "p" := by
  have h := C7_query_failures Unit envThrowing sampleState sampleSurface
    { anchorNode := some () } () rfl rfl rfl rfl
  exact ⟨rfl, rfl, (h.1 Command.bold (by decide)).2 rfl, h.2 rfl⟩

end TextStudio
